import Mathlib

/-!
# tun_tap: the `iface` class of `tun_tap.hpp`

A shallow embedding of `src/tun_tap.hpp`.

* The operating system is a parameter: a record `OS σ` of the five system
  calls the header uses (`open`, `ioctl`, `close`, `read`, `write`) acting on
  an arbitrary kernel state `σ`.
* Every function of the header that talks to the kernel returns, next to its
  result, the list of system calls it issued (in order) and the kernel state
  it leaves behind.
* A C++ exception is an `Except.error`; the destructors that run while the
  exception unwinds are spelled out.
* Undefined behaviour of the C++ source (indexing the queue vector out of
  range, reading a character array without terminator as a C string) is the
  outer `none`.
* `std::vector<fd>(n)` throws `std::length_error` for `n` above its
  `max_size()`; an allocation within that bound is assumed to succeed
  (no `std::bad_alloc`).
-/

namespace tun_tap

/-! ## Data model -/

/-- The enumeration `enum class mode { TUN, TAP }`. -/
inductive mode where
  | TUN
  | TAP
  deriving DecidableEq, Repr

/-- Constants of the platform headers `<net/if.h>`, `<linux/if_tun.h>`,
`<fcntl.h>` used by `tun_tap.hpp`, and the value of
`std::vector<fd>::max_size()` of the C++ library. The headers are not part of
the repository, so the constants are parameters of the embedding. The four
`IFF_*` values are flag words that fit the `short` field `ifr_flags`. -/
structure Platform where
  IFNAMSIZ : Nat
  IFF_TUN : Nat
  IFF_TAP : Nat
  IFF_NO_PI : Nat
  IFF_MULTI_QUEUE : Nat
  O_RDWR : Nat
  TUNSETIFF : Nat
  max_size : Nat
  deriving DecidableEq, Repr

/-- The values the constants have on Linux (x86-64, libstdc++): `max_size()`
of a vector of 4-byte handles is `PTRDIFF_MAX / 4`, that is `2^61 - 1`. -/
def linux : Platform where
  IFNAMSIZ := 16
  IFF_TUN := 0x0001
  IFF_TAP := 0x0002
  IFF_NO_PI := 0x1000
  IFF_MULTI_QUEUE := 0x0100
  O_RDWR := 2
  TUNSETIFF := 0x400454ca
  max_size := 2305843009213693951

/-- The two fields of `struct ifreq` the constructor uses: the name buffer
`ifr_name` (an array of `IFNAMSIZ` bytes) and the flag word `ifr_flags`. -/
structure ifreq where
  ifr_name : List Nat
  ifr_flags : Nat
  deriving DecidableEq, Repr

/-- One system call as seen by the kernel: its arguments and what it
returned. For `ioctl`, `out_name` is the content of `ifr_name` after the
call. A buffer argument of `read`/`write` is its address. -/
inductive Call where
  | sys_open (path : String) (flags : Nat) (ret : Int)
  | sys_ioctl (fd : Int) (request : Nat) (arg : ifreq) (ret : Int) (out_name : List Nat)
  | sys_close (fd : Int)
  | sys_read (fd : Int) (buf : Nat) (n_bytes : Nat) (ret : Int)
  | sys_write (fd : Int) (buf : Nat) (n_bytes : Nat) (ret : Int)
  deriving DecidableEq, Repr

/-- The kernel, as far as `tun_tap.hpp` uses it. `sys_ioctl` is the call
`ioctl(fd, request, &ifr)` for `request = TUNSETIFF`: it returns the result
code and the name buffer the kernel leaves in `ifr.ifr_name` (TUNSETIFF
reports the interface name there and leaves `ifr_flags` as passed). The
result of `close` is ignored by the header, so `sys_close` returns only the
new kernel state. -/
structure OS (σ : Type) where
  sys_open : σ → String → Nat → Int × σ
  sys_ioctl : σ → Int → Nat → ifreq → (Int × List Nat) × σ
  sys_close : σ → Int → σ
  sys_read : σ → Int → Nat → Nat → Int × σ
  sys_write : σ → Int → Nat → Nat → Int × σ

/-- The exceptions that leave the header: `length_error` is the
`std::length_error` of the vector constructor in `_queues { n_queues }`
(line 85); the others are the `std::runtime_error` values thrown by the
header, one constructor for each `throw`:
* `cant_open path`: "can't open " + path (line 31),
* `name_too_long max`: "name is too long. Maximum lenght is max bytes" (line 102),
* `ioctl_returned err`: "ioctl returned " + err (line 113),
* `read_negative`: "n bytes read < 0" (line 127),
* `write_negative`: "n bytes written < 0" (line 136). -/
inductive Error where
  | cant_open (path : String)
  | name_too_long (max : Nat)
  | ioctl_returned (err : Int)
  | read_negative
  | write_negative
  | length_error
  deriving DecidableEq, Repr

/-- The nested class `iface::fd`: one descriptor, `-1` when it owns none. -/
structure fd where
  _fd : Int
  deriving DecidableEq, Repr

/-- The class `iface`: its three data members. -/
structure iface where
  _mode : mode
  _name : List Nat
  _queues : List fd
  deriving DecidableEq, Repr

/-! ## `iface::fd` -/

variable {σ : Type}

/-- The default constructor `fd() : _fd { -1 } { }`. -/
def fd.default : fd := ⟨-1⟩

/-- The constructor `fd(std::string_view name, int flags)`: calls `open`; a
negative result throws (the object is then not constructed and no destructor
runs for it), otherwise the object holds the descriptor. -/
def fd.ctor (os : OS σ) (s : σ) (name : String) (flags : Nat) :
    Except Error fd × List Call × σ :=
  let o := os.sys_open s name flags
  if o.1 < 0 then
    (Except.error (Error.cant_open name), [Call.sys_open name flags o.1], o.2)
  else
    (Except.ok ⟨o.1⟩, [Call.sys_open name flags o.1], o.2)

/-- The destructor `~fd() { if (_fd != -1) close(_fd); }`. -/
def fd.dtor (os : OS σ) (s : σ) (self : fd) : List Call × σ :=
  if self._fd ≠ -1 then ([Call.sys_close self._fd], os.sys_close s self._fd)
  else ([], s)

/-- The move assignment `fd& operator=(fd&& o) { _fd = o._fd; o._fd = -1; }`:
the pair (assigned object, moved-from object). The descriptor the target
held before is overwritten without a `close`. -/
def fd.move_assign (_self : fd) (o : fd) : fd × fd := (⟨o._fd⟩, ⟨-1⟩)

/-- Destruction of the elements of a `std::vector<fd>`, front to back. -/
def destroyAll (os : OS σ) : σ → List fd → List Call × σ
  | s, [] => ([], s)
  | s, f :: fs =>
    let d := fd.dtor os s f
    let r := destroyAll os d.2 fs
    (d.1 ++ r.1, r.2)

/-! ## C library -/

/-- The call `strncpy(dest, src, n)` for `n` at most the size of `dest`:
the bytes of `src` before its first NUL, at most `n` of them, then NUL bytes
up to `n` bytes in all; the rest of `dest` is kept. -/
def strncpy (dest src : List Nat) (n : Nat) : List Nat :=
  let body := (src.takeWhile (fun b => b ≠ 0)).take n
  body ++ List.replicate (n - body.length) 0 ++ dest.drop n

/-- The method `std::string::c_str()`: the bytes and a terminating NUL. -/
def c_str (s : List Nat) : List Nat := s ++ [0]

/-- The conversion of a character array to `std::string` in
`_name = ifr.ifr_name`: the bytes before the first NUL. An array that holds
no NUL makes the read run past the array: undefined (`none`). -/
def cstr (buf : List Nat) : Option (List Nat) :=
  if 0 ∈ buf then some (buf.takeWhile (fun b => b ≠ 0)) else none

/-! ## `iface` -/

/-- The range-for loop of the constructor (lines 109-120) over the elements
of `_queues` not yet visited (first argument); `done` holds the elements
already visited, `name` is `_name`, `ifr` is the local `ifr`.

Per element: construct the local `fd` (an exception unwinds `_queues`);
`ioctl`; on a negative result `close(fd)`, then the exception destroys the
local `fd` and unwinds `_queues`; otherwise capture the name when `_name` is
empty, move the local into the element and destroy the moved-from local. -/
def constructLoop (p : Platform) (os : OS σ) :
    List fd → List fd → List Nat → ifreq → σ →
      Option (Except Error (List Nat × List fd) × List Call × σ)
  | [], done, name, _, s => some (Except.ok (name, done), [], s)
  | queue :: rest, done, name, ifr, s =>
    match fd.ctor os s "/dev/net/tun" p.O_RDWR with
    | (Except.error e, t0, s0) =>
      let d := destroyAll os s0 (done ++ queue :: rest)
      some (Except.error e, t0 ++ d.1, d.2)
    | (Except.ok local_fd, t0, s0) =>
      let c := os.sys_ioctl s0 local_fd._fd p.TUNSETIFF ifr
      let t1 := [Call.sys_ioctl local_fd._fd p.TUNSETIFF ifr c.1.1 c.1.2]
      if c.1.1 < 0 then
        let s1 := os.sys_close c.2 local_fd._fd
        let d1 := fd.dtor os s1 local_fd
        let d2 := destroyAll os d1.2 (done ++ queue :: rest)
        some (Except.error (Error.ioctl_returned c.1.1),
          t0 ++ t1 ++ [Call.sys_close local_fd._fd] ++ d1.1 ++ d2.1, d2.2)
      else
        let ifr1 : ifreq := { ifr with ifr_name := c.1.2 }
        match (if name.isEmpty then cstr ifr1.ifr_name else some name) with
        | none => none
        | some name1 =>
          let mv := fd.move_assign queue local_fd
          let d := fd.dtor os c.2 mv.2
          match constructLoop p os rest (done ++ [mv.1]) name1 ifr1 d.2 with
          | none => none
          | some (r, t2, s2) => some (r, t0 ++ t1 ++ d.1 ++ t2, s2)

/-- The constructor `iface(std::string name, mode mode, bool packet_info,
size_t n_queues)` (lines 84-121). The members are initialised first:
`_queues { n_queues }` builds `n_queues` default handles and throws
`std::length_error` when `n_queues` exceeds `max_size()`, before the body
runs and with nothing to release. Every exception of the body destroys the
members. -/
def iface.ctor (p : Platform) (os : OS σ) (s : σ) (name : List Nat) (m : mode)
    (packet_info : Bool) (n_queues : Nat) :
    Option (Except Error iface × List Call × σ) :=
  if p.max_size < n_queues then some (Except.error Error.length_error, [], s)
  else
    let _queues := List.replicate n_queues fd.default
    let ifr0 : ifreq := ⟨List.replicate p.IFNAMSIZ 0, 0⟩
    let ifr1 : ifreq := { ifr0 with ifr_flags :=
      match m with
      | mode.TUN => p.IFF_TUN
      | mode.TAP => p.IFF_TAP }
    let ifr2 : ifreq := { ifr1 with ifr_flags :=
      ifr1.ifr_flags ||| (if !packet_info then p.IFF_NO_PI else 0) }
    let ifr3 : ifreq := { ifr2 with ifr_flags :=
      ifr2.ifr_flags ||| (if n_queues > 1 then p.IFF_MULTI_QUEUE else 0) }
    if p.IFNAMSIZ < name.length then
      let d := destroyAll os s _queues
      some (Except.error (Error.name_too_long p.IFNAMSIZ), d.1, d.2)
    else
      let ifr4 : ifreq :=
        if name ≠ [] then
          { ifr3 with ifr_name := strncpy ifr3.ifr_name (c_str name) name.length }
        else ifr3
      match constructLoop p os _queues [] name ifr4 s with
      | none => none
      | some (Except.error e, t, s1) => some (Except.error e, t, s1)
      | some (Except.ok (name1, queues1), t, s1) =>
        some (Except.ok ⟨m, name1, queues1⟩, t, s1)

/-- The delegating constructor `iface(mode, bool, size_t)`: the empty name. -/
def iface.ctor_unnamed (p : Platform) (os : OS σ) (s : σ) (m : mode)
    (packet_info : Bool) (n_queues : Nat) :
    Option (Except Error iface × List Call × σ) :=
  iface.ctor p os s [] m packet_info n_queues

/-- The method `get_n_queues()`. -/
def iface.get_n_queues (self : iface) : Nat := self._queues.length

/-- The method `get_name()`. -/
def iface.get_name (self : iface) : List Nat := self._name

/-- The method `read(buf, n_bytes, queue)` (lines 123-130). `_queues[queue]`
is not bounds-checked: out of range it is undefined (`none`). The second
component is the object after the call. -/
def iface.read (os : OS σ) (s : σ) (self : iface) (buf n_bytes queue : Nat) :
    Option (Except Error Nat × iface × List Call × σ) :=
  match self._queues[queue]? with
  | none => none
  | some q =>
    let r := os.sys_read s q._fd buf n_bytes
    if r.1 < 0 then
      some (Except.error Error.read_negative, self,
        [Call.sys_read q._fd buf n_bytes r.1], r.2)
    else
      some (Except.ok r.1.toNat, self, [Call.sys_read q._fd buf n_bytes r.1], r.2)

/-- The method `write(buf, n_bytes, queue)` (lines 132-139), as `read`. -/
def iface.write (os : OS σ) (s : σ) (self : iface) (buf n_bytes queue : Nat) :
    Option (Except Error Nat × iface × List Call × σ) :=
  match self._queues[queue]? with
  | none => none
  | some q =>
    let r := os.sys_write s q._fd buf n_bytes
    if r.1 < 0 then
      some (Except.error Error.write_negative, self,
        [Call.sys_write q._fd buf n_bytes r.1], r.2)
    else
      some (Except.ok r.1.toNat, self, [Call.sys_write q._fd buf n_bytes r.1], r.2)

/-! ## Observations on a trace of system calls -/

/-- The descriptor a call opened: the result of a successful `open`. -/
def Call.openedFd : Call → Option Int
  | Call.sys_open _ _ r => if 0 ≤ r then some r else none
  | _ => none

/-- The descriptor a call closed. -/
def Call.closedFd : Call → Option Int
  | Call.sys_close f => some f
  | _ => none

/-- The argument and result of an `open` call: path, flags, result. -/
def Call.openCall : Call → Option (String × Nat × Int)
  | Call.sys_open path flags r => some (path, flags, r)
  | _ => none

/-- The request structure passed to an `ioctl` call. -/
def Call.ioctlArg : Call → Option ifreq
  | Call.sys_ioctl _ _ arg _ _ => some arg
  | _ => none

/-- The descriptor and request code of an `ioctl` call. -/
def Call.ioctlTarget : Call → Option (Int × Nat)
  | Call.sys_ioctl f req _ _ _ => some (f, req)
  | _ => none

/-- The name buffer the kernel left behind in an `ioctl` call. -/
def Call.ioctlOut : Call → Option (List Nat)
  | Call.sys_ioctl _ _ _ _ out => some out
  | _ => none

/-- A call that reported failure: `open` or `ioctl` with a negative result. -/
def Call.failed : Call → Bool
  | Call.sys_open _ _ r => decide (r < 0)
  | Call.sys_ioctl _ _ _ r _ => decide (r < 0)
  | _ => false

/-- A call that is a `read` or a `write`. -/
def Call.isTransfer : Call → Bool
  | Call.sys_read _ _ _ _ => true
  | Call.sys_write _ _ _ _ => true
  | _ => false

/-- The descriptors opened in a trace, in order. -/
def openedFds (tr : List Call) : List Int := tr.filterMap Call.openedFd

/-- The descriptors closed in a trace, in order (with repetitions). -/
def closedFds (tr : List Call) : List Int := tr.filterMap Call.closedFd

/-- The `open` calls of a trace, in order. -/
def openCalls (tr : List Call) : List (String × Nat × Int) :=
  tr.filterMap Call.openCall

/-- The request structures of the `ioctl` calls of a trace, in order. -/
def ioctlArgs (tr : List Call) : List ifreq := tr.filterMap Call.ioctlArg

/-- The descriptors and request codes of the `ioctl` calls of a trace. -/
def ioctlTargets (tr : List Call) : List (Int × Nat) :=
  tr.filterMap Call.ioctlTarget

/-- The name buffers returned by the `ioctl` calls of a trace, in order. -/
def ioctlOuts (tr : List Call) : List (List Nat) := tr.filterMap Call.ioctlOut

/-- The set of open descriptors after a trace, from the set open before it:
a successful `open` adds its result, `close` removes its argument (closing a
descriptor that is not open changes nothing). -/
def openAfter : Finset Int → List Call → Finset Int
  | S, [] => S
  | S, Call.sys_open _ _ r :: tr => openAfter (if 0 ≤ r then insert r S else S) tr
  | S, Call.sys_close f :: tr => openAfter (S.erase f) tr
  | S, _ :: tr => openAfter S tr

/-- The bytes of a name buffer read as a C string (total version of `cstr`). -/
def nameOf (buf : List Nat) : List Nat := buf.takeWhile (fun b => b ≠ 0)

/-! ## A scripted kernel, for concrete runs -/

/-- The answers a scripted kernel still has to give: the results of the
coming `open` calls, of the coming `ioctl` calls (result and name buffer),
and of the coming `read` and `write` calls. -/
structure Script where
  opens : List Int
  ioctls : List (Int × List Nat)
  reads : List Int
  writes : List Int
  deriving DecidableEq, Repr

/-- The kernel that answers from a script; an exhausted script answers `-1`. -/
def scripted : OS Script where
  sys_open := fun s _ _ => (s.opens.headD (-1), { s with opens := s.opens.tail })
  sys_ioctl := fun s _ _ arg =>
    (s.ioctls.headD (-1, arg.ifr_name), { s with ioctls := s.ioctls.tail })
  sys_close := fun s _ => s
  sys_read := fun s _ _ _ => (s.reads.headD (-1), { s with reads := s.reads.tail })
  sys_write := fun s _ _ _ => (s.writes.headD (-1), { s with writes := s.writes.tail })

/-- The name buffer holding `bytes` and NUL padding up to 16 bytes. -/
def nameBuf (bytes : List Nat) : List Nat :=
  bytes ++ List.replicate (16 - bytes.length) 0

/-- The bytes of "tun0". -/
def tun0 : List Nat := [116, 117, 110, 48]

/-- The bytes of "tun1". -/
def tun1 : List Nat := [116, 117, 110, 49]

/-- The bytes of "tun%d", a name template the kernel fills in. -/
def tunTemplate : List Nat := [116, 117, 110, 37, 100]

/-- A script for three queues: three descriptors, two successful TUNSETIFF
calls that report "tun0", and a third that fails. -/
def threeQueues : Script :=
  ⟨[3, 4, 5], [(0, nameBuf tun0), (0, nameBuf tun0), (-1, nameBuf tun0)], [], []⟩

/-- The system calls of the constructor run on `threeQueues` (TUN, packet
info, three queues, no name). -/
def thirdIoctlFails : List Call :=
  [Call.sys_open "/dev/net/tun" 2 3,
   Call.sys_ioctl 3 0x400454ca ⟨nameBuf [], 0x101⟩ 0 (nameBuf tun0),
   Call.sys_open "/dev/net/tun" 2 4,
   Call.sys_ioctl 4 0x400454ca ⟨nameBuf tun0, 0x101⟩ 0 (nameBuf tun0),
   Call.sys_open "/dev/net/tun" 2 5,
   Call.sys_ioctl 5 0x400454ca ⟨nameBuf tun0, 0x101⟩ (-1) (nameBuf tun0),
   Call.sys_close 5, Call.sys_close 5, Call.sys_close 3, Call.sys_close 4]


/-- A script for two queues: descriptors 3 and 4, two successful TUNSETIFF
calls that report "tun0", one `read` of 64 bytes and one failing `write`. -/
def twoQueues : Script :=
  ⟨[3, 4], [(0, nameBuf tun0), (0, nameBuf tun0)], [64], [-1]⟩

/-- The system calls of the constructor run on `twoQueues` for TAP, no
packet info, two queues and no requested name. -/
def unnamedRun : List Call :=
  [Call.sys_open "/dev/net/tun" 2 3,
   Call.sys_ioctl 3 0x400454ca ⟨nameBuf [], 0x1102⟩ 0 (nameBuf tun0),
   Call.sys_open "/dev/net/tun" 2 4,
   Call.sys_ioctl 4 0x400454ca ⟨nameBuf tun0, 0x1102⟩ 0 (nameBuf tun0)]


/-- The system calls of the constructor run on `twoQueues` for TUN, packet
info, two queues and the requested name "tun%d": the kernel reports "tun0". -/
def templateRun : List Call :=
  [Call.sys_open "/dev/net/tun" 2 3,
   Call.sys_ioctl 3 0x400454ca ⟨nameBuf tunTemplate, 0x101⟩ 0 (nameBuf tun0),
   Call.sys_open "/dev/net/tun" 2 4,
   Call.sys_ioctl 4 0x400454ca ⟨nameBuf tun0, 0x101⟩ 0 (nameBuf tun0)]

/-- A script for two queues in which the first TUNSETIFF call succeeds with
an empty name in the buffer and the second reports "tun1". -/
def lateName : Script :=
  ⟨[3, 4], [(0, nameBuf []), (0, nameBuf tun1)], [], []⟩

/-- The system calls of the constructor run on `lateName` for TUN, packet
info, two queues and no requested name. -/
def lateNameRun : List Call :=
  [Call.sys_open "/dev/net/tun" 2 3,
   Call.sys_ioctl 3 0x400454ca ⟨nameBuf [], 0x101⟩ 0 (nameBuf []),
   Call.sys_open "/dev/net/tun" 2 4,
   Call.sys_ioctl 4 0x400454ca ⟨nameBuf [], 0x101⟩ 0 (nameBuf tun1)]

/-- A script for three queues in which the kernel reports "tun0" for the
first queue and "tun1" for the two others. -/
def twoNames : Script :=
  ⟨[3, 4, 5], [(0, nameBuf tun0), (0, nameBuf tun1), (0, nameBuf tun1)], [], []⟩

/-- The system calls of the constructor run on `twoNames` for TUN, packet
info, three queues and no requested name. -/
def twoNamesRun : List Call :=
  [Call.sys_open "/dev/net/tun" 2 3,
   Call.sys_ioctl 3 0x400454ca ⟨nameBuf [], 0x101⟩ 0 (nameBuf tun0),
   Call.sys_open "/dev/net/tun" 2 4,
   Call.sys_ioctl 4 0x400454ca ⟨nameBuf tun0, 0x101⟩ 0 (nameBuf tun1),
   Call.sys_open "/dev/net/tun" 2 5,
   Call.sys_ioctl 5 0x400454ca ⟨nameBuf tun1, 0x101⟩ 0 (nameBuf tun1)]

/-- A three-byte name with a NUL in the middle: "a", NUL, "b". -/
def nulName : List Nat := [97, 0, 98]

/-! ## The destructors and the constructor loop -/

theorem fd_dtor_default (os : OS σ) (s : σ) : fd.dtor os s ⟨-1⟩ = ([], s) := by
  simp [fd.dtor]

theorem fd_dtor_live (os : OS σ) (s : σ) (f : Int) (h : 0 ≤ f) :
    fd.dtor os s ⟨f⟩ = ([Call.sys_close f], os.sys_close s f) := by
  have : f ≠ -1 := by omega
  simp [fd.dtor, this]

theorem destroyAll_fst (os : OS σ) (s : σ) (l : List fd) :
    (destroyAll os s l).1 =
      (l.filter (fun f => decide (f._fd ≠ -1))).map (fun f => Call.sys_close f._fd) := by
  induction l generalizing s with
  | nil => rfl
  | cons f fs ih =>
    by_cases hf : f._fd = -1
    · simp [destroyAll, fd.dtor, hf, ih]
    · simp [destroyAll, fd.dtor, hf, ih]

theorem destroyAll_replicate_default (os : OS σ) (s : σ) (n : Nat) :
    destroyAll os s (List.replicate n fd.default) = ([], s) := by
  induction n with
  | zero => rfl
  | succ n ih =>
    have hd : fd.dtor os s fd.default = ([], s) := by simp [fd.dtor, fd.default]
    simp [List.replicate_succ, destroyAll, hd, ih]

/-- Inversion of one iteration of the constructor loop. -/
theorem constructLoop_cons (p : Platform) (os : OS σ) (queue : fd) (rest done : List fd)
    (name : List Nat) (ifr : ifreq) (s : σ)
    (r : Except Error (List Nat × List fd)) (tr : List Call) (s1 : σ)
    (h : constructLoop p os (queue :: rest) done name ifr s = some (r, tr, s1)) :
    let o := os.sys_open s "/dev/net/tun" p.O_RDWR
    let c := os.sys_ioctl o.2 o.1 p.TUNSETIFF ifr
    (o.1 < 0 ∧ r = Except.error (Error.cant_open "/dev/net/tun") ∧
      tr = Call.sys_open "/dev/net/tun" p.O_RDWR o.1 ::
        (destroyAll os o.2 (done ++ queue :: rest)).1) ∨
    (0 ≤ o.1 ∧ c.1.1 < 0 ∧ r = Except.error (Error.ioctl_returned c.1.1) ∧
      tr = Call.sys_open "/dev/net/tun" p.O_RDWR o.1 ::
        Call.sys_ioctl o.1 p.TUNSETIFF ifr c.1.1 c.1.2 ::
        Call.sys_close o.1 :: Call.sys_close o.1 ::
        (destroyAll os (os.sys_close (os.sys_close c.2 o.1) o.1) (done ++ queue :: rest)).1) ∨
    (0 ≤ o.1 ∧ 0 ≤ c.1.1 ∧ ∃ name1 t2,
      (if name.isEmpty then cstr c.1.2 else some name) = some name1 ∧
      constructLoop p os rest (done ++ [⟨o.1⟩]) name1 ⟨c.1.2, ifr.ifr_flags⟩ c.2
        = some (r, t2, s1) ∧
      tr = Call.sys_open "/dev/net/tun" p.O_RDWR o.1 ::
        Call.sys_ioctl o.1 p.TUNSETIFF ifr c.1.1 c.1.2 :: t2) := by
  intro o c
  simp only [constructLoop, fd.ctor] at h
  by_cases ho : o.1 < 0
  · left
    simp only [o] at ho
    simp [ho] at h
    simp [o, ho, ← h.1, ← h.2.1]
  · right
    have ho1 : 0 ≤ o.1 := by omega
    simp only [o] at ho
    simp only [ho, if_false] at h
    by_cases hc : c.1.1 < 0
    · left
      simp only [c, o] at hc
      simp only [hc, if_true] at h
      simp only [fd_dtor_live os _ _ ho1] at h
      simp at h
      simp [o, c, ho1, hc, ← h.1, ← h.2.1]
    · right
      have hc1 : 0 ≤ c.1.1 := by omega
      simp only [c, o] at hc
      simp only [hc, if_false, fd.move_assign, fd_dtor_default] at h
      refine ⟨ho1, hc1, ?_⟩
      split at h
      · exact absurd h (by simp)
      · rename_i name1 hname
        split at h
        · exact absurd h (by simp)
        · rename_i r2 t2 s2 hloop
          simp at h
          refine ⟨name1, t2, hname, ?_, ?_⟩
          · rw [hloop, ← h.1, ← h.2.2]
          · simp [← h.2.1]

theorem closedFds_destroyAll (os : OS σ) (s : σ) (l : List fd) :
    closedFds (destroyAll os s l).1 =
      (l.filter (fun f => decide (f._fd ≠ -1))).map (fun f => f._fd) := by
  rw [destroyAll_fst, closedFds]
  induction l.filter (fun f => decide (f._fd ≠ -1)) with
  | nil => rfl
  | cons f fs ih => simp [List.filterMap_cons, Call.closedFd, ih]

theorem filterMap_destroyAll_eq_nil (os : OS σ) (s : σ) (l : List fd) {β : Type}
    (g : Call → Option β) (hg : ∀ f, g (Call.sys_close f) = none) :
    (destroyAll os s l).1.filterMap g = [] := by
  rw [destroyAll_fst]
  simp [List.filterMap_map, Function.comp_def, hg]

theorem constructLoop_flags (p : Platform) (os : OS σ) (rest : List fd) :
    ∀ (done : List fd) (name : List Nat) (ifr : ifreq) (s : σ)
      (r : Except Error (List Nat × List fd)) (tr : List Call) (s1 : σ),
      constructLoop p os rest done name ifr s = some (r, tr, s1) →
      ∀ a ∈ ioctlArgs tr, a.ifr_flags = ifr.ifr_flags := by
  induction rest with
  | nil =>
    intro done name ifr s r tr s1 h a ha
    simp [constructLoop] at h
    obtain ⟨_, rfl, _⟩ := h
    simp [ioctlArgs] at ha
  | cons queue rest ih =>
    intro done name ifr s r tr s1 h a ha
    have hc := constructLoop_cons p os queue rest done name ifr s r tr s1 h
    dsimp only at hc
    rcases hc with ⟨_, _, htr⟩ | ⟨_, _, _, htr⟩ | ⟨_, _, name1, t2, _, hloop, htr⟩
    · rw [htr] at ha
      simp [ioctlArgs, Call.ioctlArg,
        filterMap_destroyAll_eq_nil os _ _ Call.ioctlArg (fun _ => rfl)] at ha
    · rw [htr] at ha
      simp [ioctlArgs, Call.ioctlArg,
        filterMap_destroyAll_eq_nil os _ _ Call.ioctlArg (fun _ => rfl)] at ha
      rw [ha]
    · rw [htr] at ha
      simp only [ioctlArgs, List.filterMap_cons, Call.ioctlArg, List.mem_cons] at ha
      rcases ha with ha | ha
      · rw [ha]
      · exact ih _ _ _ _ _ _ _ hloop a ha

theorem constructLoop_ok (p : Platform) (os : OS σ) (rest : List fd) :
    ∀ (done : List fd) (name : List Nat) (ifr : ifreq) (s : σ)
      (nm : List Nat) (qs : List fd) (tr : List Call) (s1 : σ),
      constructLoop p os rest done name ifr s = some (Except.ok (nm, qs), tr, s1) →
      ∃ fs : List Int, qs = done ++ fs.map fd.mk ∧ fs.length = rest.length ∧
        (∀ f ∈ fs, 0 ≤ f) ∧
        openCalls tr = fs.map (fun f => ("/dev/net/tun", p.O_RDWR, f)) ∧
        ioctlTargets tr = fs.map (fun f => (f, p.TUNSETIFF)) ∧
        closedFds tr = [] ∧ tr.length = 2 * rest.length := by
  induction rest with
  | nil =>
    intro done name ifr s nm qs tr s1 h
    simp [constructLoop] at h
    obtain ⟨⟨_, rfl⟩, rfl, _⟩ := h
    exact ⟨[], by simp, rfl, by simp, rfl, rfl, rfl, rfl⟩
  | cons queue rest ih =>
    intro done name ifr s nm qs tr s1 h
    have hc := constructLoop_cons p os queue rest done name ifr s _ tr s1 h
    dsimp only at hc
    rcases hc with ⟨_, hr, _⟩ | ⟨_, _, hr, _⟩ | ⟨ho, _, name1, t2, _, hloop, htr⟩
    · exact absurd hr (by simp)
    · exact absurd hr (by simp)
    · obtain ⟨fs, hqs, hlen, hpos, hopen, hioctl, hclose, htl⟩ := ih _ _ _ _ _ _ _ _ hloop
      refine ⟨(os.sys_open s "/dev/net/tun" p.O_RDWR).1 :: fs, ?_, ?_, ?_, ?_, ?_, ?_, ?_⟩
      · simp [hqs]
      · simp [hlen]
      · intro f hf
        rcases List.mem_cons.1 hf with hf | hf
        · rw [hf]; exact ho
        · exact hpos f hf
      · rw [htr]
        simp only [openCalls, List.filterMap_cons, Call.openCall, List.map_cons]
        exact congrArg _ hopen
      · rw [htr]
        simp only [ioctlTargets, List.filterMap_cons, Call.ioctlTarget, List.map_cons]
        exact congrArg _ hioctl
      · rw [htr]
        simpa only [closedFds, List.filterMap_cons, Call.closedFd] using hclose
      · rw [htr]
        simp only [List.length_cons, htl]
        omega

theorem constructLoop_failed_iff (p : Platform) (os : OS σ) (rest : List fd) :
    ∀ (done : List fd) (name : List Nat) (ifr : ifreq) (s : σ)
      (r : Except Error (List Nat × List fd)) (tr : List Call) (s1 : σ),
      constructLoop p os rest done name ifr s = some (r, tr, s1) →
      ((∃ c ∈ tr, c.failed = true) ↔ ∃ e, r = Except.error e) := by
  induction rest with
  | nil =>
    intro done name ifr s r tr s1 h
    simp [constructLoop] at h
    obtain ⟨rfl, rfl, _⟩ := h
    simp
  | cons queue rest ih =>
    intro done name ifr s r tr s1 h
    have hc := constructLoop_cons p os queue rest done name ifr s _ tr s1 h
    dsimp only at hc
    rcases hc with ⟨ho, hr, htr⟩ | ⟨_, hc1, hr, htr⟩ | ⟨ho, hc1, name1, t2, _, hloop, htr⟩
    · constructor
      · intro _; exact ⟨_, hr⟩
      · intro _
        exact ⟨_, by rw [htr]; exact List.mem_cons_self _ _, by simp [Call.failed, ho]⟩
    · constructor
      · intro _; exact ⟨_, hr⟩
      · intro _
        rw [htr]
        exact ⟨_, List.mem_cons_of_mem _ (List.mem_cons_self _ _), by simp [Call.failed, hc1]⟩
    · rw [← ih _ _ _ _ _ _ _ hloop, htr]
      have h1 : ¬ (os.sys_open s "/dev/net/tun" p.O_RDWR).1 < 0 := by omega
      have h2 : ¬ (os.sys_ioctl (os.sys_open s "/dev/net/tun" p.O_RDWR).2
          (os.sys_open s "/dev/net/tun" p.O_RDWR).1 p.TUNSETIFF ifr).1.1 < 0 := by omega
      simp [Call.failed, h1, h2]

theorem constructLoop_error_closed (p : Platform) (os : OS σ) (rest : List fd) :
    ∀ (done : List fd) (name : List Nat) (ifr : ifreq) (s : σ)
      (e : Error) (tr : List Call) (s1 : σ),
      (∀ q ∈ rest, q._fd = -1) →
      constructLoop p os rest done name ifr s = some (Except.error e, tr, s1) →
      ∀ x, x ∈ closedFds tr ↔ (x ∈ openedFds tr ∨ (x ≠ -1 ∧ fd.mk x ∈ done)) := by
  induction rest with
  | nil =>
    intro done name ifr s e tr s1 _ h
    simp [constructLoop] at h
  | cons queue rest ih =>
    intro done name ifr s e tr s1 hrest h x
    have hq : queue._fd = -1 := hrest queue (List.mem_cons_self _ _)
    have hrest1 : ∀ q ∈ rest, q._fd = -1 := fun q hq => hrest q (List.mem_cons_of_mem _ hq)
    have hmem : ∀ y, (∃ f, (f ∈ done ∨ f = queue ∨ f ∈ rest) ∧ ¬ f._fd = -1 ∧ f._fd = y) ↔
        (y ≠ -1 ∧ fd.mk y ∈ done) := by
      intro y
      constructor
      · rintro ⟨f, hf, hne, rfl⟩
        rcases hf with hf | hf | hf
        · exact ⟨hne, hf⟩
        · exact absurd (hf ▸ hq) hne
        · exact absurd (hrest1 f hf) hne
      · rintro ⟨hne, hy⟩
        exact ⟨⟨y⟩, Or.inl hy, hne, rfl⟩
    have hc := constructLoop_cons p os queue rest done name ifr s _ tr s1 h
    dsimp only at hc
    rcases hc with ⟨ho, _, htr⟩ | ⟨ho, _, _, htr⟩ | ⟨ho, _, name1, t2, _, hloop, htr⟩
    · have h1 : ¬ 0 ≤ (os.sys_open s "/dev/net/tun" p.O_RDWR).1 := by omega
      rw [htr]
      simp only [closedFds, openedFds, List.filterMap_cons, Call.closedFd, Call.openedFd, h1,
        if_false]
      rw [filterMap_destroyAll_eq_nil os _ _ Call.openedFd (fun _ => rfl)]
      have := closedFds_destroyAll os (os.sys_open s "/dev/net/tun" p.O_RDWR).2 (done ++ queue :: rest)
      rw [closedFds] at this
      rw [this]
      simp only [List.mem_map, List.mem_filter, List.mem_append, List.mem_cons,
        decide_eq_true_eq, ne_eq, List.not_mem_nil, false_or]
      rw [← hmem x]
      constructor
      · rintro ⟨f, ⟨hf, hne⟩, rfl⟩; exact ⟨f, hf, hne, rfl⟩
      · rintro ⟨f, hf, hne, rfl⟩; exact ⟨f, ⟨hf, hne⟩, rfl⟩
    · rw [htr]
      simp only [closedFds, openedFds, List.filterMap_cons, Call.closedFd, Call.openedFd, ho,
        if_true]
      rw [filterMap_destroyAll_eq_nil os _ _ Call.openedFd (fun _ => rfl)]
      have := closedFds_destroyAll os
        (os.sys_close (os.sys_close (os.sys_ioctl (os.sys_open s "/dev/net/tun" p.O_RDWR).2
          (os.sys_open s "/dev/net/tun" p.O_RDWR).1 p.TUNSETIFF ifr).2
          (os.sys_open s "/dev/net/tun" p.O_RDWR).1) (os.sys_open s "/dev/net/tun" p.O_RDWR).1)
        (done ++ queue :: rest)
      rw [closedFds] at this
      rw [this]
      simp only [List.mem_map, List.mem_filter, List.mem_append, List.mem_cons,
        decide_eq_true_eq, ne_eq, List.not_mem_nil, or_false]
      rw [← hmem x]
      constructor
      · rintro (h1 | h1 | ⟨f, ⟨hf, hne⟩, rfl⟩)
        · exact Or.inl h1
        · exact Or.inl h1
        · exact Or.inr ⟨f, hf, hne, rfl⟩
      · rintro (h1 | ⟨f, hf, hne, rfl⟩)
        · exact Or.inl h1
        · exact Or.inr (Or.inr ⟨f, ⟨hf, hne⟩, rfl⟩)
    · have key := ih _ _ _ _ _ _ _ hrest1 hloop x
      rw [htr]
      simp only [closedFds, openedFds, List.filterMap_cons, Call.closedFd, Call.openedFd, ho,
        if_true, List.mem_cons]
      rw [closedFds, openedFds] at key
      rw [key]
      simp only [List.mem_append, List.mem_singleton, fd.mk.injEq, ne_eq]
      constructor
      · rintro (h1 | ⟨hne, h1 | h1⟩)
        · exact Or.inl (Or.inr h1)
        · exact Or.inr ⟨hne, h1⟩
        · exact Or.inl (Or.inl h1)
      · rintro ((h1 | h1) | ⟨hne, h1⟩)
        · refine Or.inr ⟨?_, Or.inr h1⟩
          rw [h1]; omega
        · exact Or.inl h1
        · exact Or.inr ⟨hne, Or.inl h1⟩

theorem openAfter_closes (S : Finset Int) (l : List Int) :
    openAfter S (l.map Call.sys_close) = S \ l.toFinset := by
  induction l generalizing S with
  | nil => simp [openAfter]
  | cons f fs ih =>
    simp only [List.map_cons, openAfter, ih, List.toFinset_cons]
    ext x
    simp only [Finset.mem_sdiff, Finset.mem_erase, Finset.mem_insert, List.mem_toFinset]
    tauto

theorem openAfter_destroyAll (os : OS σ) (s : σ) (l : List fd) (S : Finset Int) :
    openAfter S (destroyAll os s l).1 = S \ (closedFds (destroyAll os s l).1).toFinset := by
  rw [closedFds_destroyAll, ← openAfter_closes, destroyAll_fst, List.map_map]
  rfl

theorem constructLoop_error_openAfter (p : Platform) (os : OS σ) (rest : List fd) :
    ∀ (done : List fd) (name : List Nat) (ifr : ifreq) (s : σ)
      (e : Error) (tr : List Call) (s1 : σ),
      constructLoop p os rest done name ifr s = some (Except.error e, tr, s1) →
      ∀ S : Finset Int,
        openAfter S tr = (S ∪ (openedFds tr).toFinset) \ (closedFds tr).toFinset := by
  induction rest with
  | nil =>
    intro done name ifr s e tr s1 h
    simp [constructLoop] at h
  | cons queue rest ih =>
    intro done name ifr s e tr s1 h S
    have hc := constructLoop_cons p os queue rest done name ifr s _ tr s1 h
    dsimp only at hc
    rcases hc with ⟨ho, _, htr⟩ | ⟨ho, _, _, htr⟩ | ⟨ho, _, name1, t2, _, hloop, htr⟩
    · have h1 : ¬ 0 ≤ (os.sys_open s "/dev/net/tun" p.O_RDWR).1 := by omega
      rw [htr]
      simp only [openAfter, closedFds, openedFds, List.filterMap_cons, Call.closedFd,
        Call.openedFd, h1, if_false]
      rw [filterMap_destroyAll_eq_nil os _ _ Call.openedFd (fun _ => rfl)]
      rw [openAfter_destroyAll, closedFds]
      simp
    · rw [htr]
      simp only [openAfter, closedFds, openedFds, List.filterMap_cons, Call.closedFd,
        Call.openedFd, ho, if_true]
      rw [filterMap_destroyAll_eq_nil os _ _ Call.openedFd (fun _ => rfl)]
      rw [openAfter_destroyAll, closedFds]
      ext x
      simp only [Finset.mem_sdiff, Finset.mem_erase, Finset.mem_insert, Finset.mem_union,
        List.mem_toFinset, List.toFinset_cons, List.mem_cons, List.not_mem_nil,
        List.toFinset_nil, Finset.not_mem_empty]
      tauto
    · rw [htr]
      simp only [openAfter, closedFds, openedFds, List.filterMap_cons, Call.closedFd,
        Call.openedFd, ho, if_true]
      have key := ih _ _ _ _ _ _ _ hloop (insert (os.sys_open s "/dev/net/tun" p.O_RDWR).1 S)
      rw [closedFds, openedFds] at key
      rw [key]
      ext x
      simp only [Finset.mem_sdiff, Finset.mem_insert, Finset.mem_union,
        List.mem_toFinset, List.toFinset_cons]
      tauto

theorem constructLoop_name (p : Platform) (os : OS σ) (rest : List fd) :
    ∀ (done : List fd) (name : List Nat) (ifr : ifreq) (s : σ)
      (nm : List Nat) (qs : List fd) (tr : List Call) (s1 : σ),
      constructLoop p os rest done name ifr s = some (Except.ok (nm, qs), tr, s1) →
      (name ≠ [] → nm = name) ∧
      (name = [] →
        nm = (((ioctlOuts tr).map nameOf).find? (fun n => decide (n ≠ []))).getD []) := by
  induction rest with
  | nil =>
    intro done name ifr s nm qs tr s1 h
    simp [constructLoop] at h
    obtain ⟨⟨rfl, _⟩, rfl, _⟩ := h
    refine ⟨fun _ => rfl, fun h0 => ?_⟩
    simp [ioctlOuts, h0]
  | cons queue rest ih =>
    intro done name ifr s nm qs tr s1 h
    have hc := constructLoop_cons p os queue rest done name ifr s _ tr s1 h
    dsimp only at hc
    rcases hc with ⟨_, hr, _⟩ | ⟨_, _, hr, _⟩ | ⟨_, _, name1, t2, hname, hloop, htr⟩
    · exact absurd hr (by simp)
    · exact absurd hr (by simp)
    · obtain ⟨ih1, ih2⟩ := ih _ _ _ _ _ _ _ _ hloop
      constructor
      · intro hne
        have : name.isEmpty = false := by
          cases name with
          | nil => exact absurd rfl hne
          | cons _ _ => rfl
        rw [this] at hname
        simp only [Bool.false_eq_true, if_false, Option.some.injEq] at hname
        rw [← hname] at ih1
        exact ih1 hne
      · intro h0
        subst h0
        simp only [List.isEmpty_nil, if_true, cstr] at hname
        split at hname
        · simp only [Option.some.injEq] at hname
          rw [htr]
          simp only [ioctlOuts, List.filterMap_cons, Call.ioctlOut, List.map_cons,
            List.find?_cons]
          by_cases hn : name1 = []
          · have := ih2 hn
            rw [ioctlOuts] at this
            simp only [nameOf, hname, hn, ne_eq, not_true_eq_false, decide_False]
            exact this
          · simp only [nameOf, hname, ne_eq, hn, not_false_eq_true, decide_True,
              Option.getD_some]
            exact ih1 hn
        · exact absurd hname (by simp)

theorem constructLoop_request_names (p : Platform) (os : OS σ) (rest : List fd) :
    ∀ (done : List fd) (name : List Nat) (ifr : ifreq) (s : σ)
      (r : Except Error (List Nat × List fd)) (tr : List Call) (s1 : σ),
      constructLoop p os rest done name ifr s = some (r, tr, s1) →
      (ioctlArgs tr).map ifreq.ifr_name = (ifr.ifr_name :: ioctlOuts tr).dropLast := by
  induction rest with
  | nil =>
    intro done name ifr s r tr s1 h
    simp [constructLoop] at h
    obtain ⟨_, rfl, _⟩ := h
    simp [ioctlArgs, ioctlOuts]
  | cons queue rest ih =>
    intro done name ifr s r tr s1 h
    have hc := constructLoop_cons p os queue rest done name ifr s _ tr s1 h
    dsimp only at hc
    rcases hc with ⟨_, _, htr⟩ | ⟨_, _, _, htr⟩ | ⟨_, _, name1, t2, _, hloop, htr⟩
    · rw [htr]
      simp [ioctlArgs, ioctlOuts, Call.ioctlArg, Call.ioctlOut,
        filterMap_destroyAll_eq_nil os _ _ Call.ioctlArg (fun _ => rfl),
        filterMap_destroyAll_eq_nil os _ _ Call.ioctlOut (fun _ => rfl)]
    · rw [htr]
      simp [ioctlArgs, ioctlOuts, Call.ioctlArg, Call.ioctlOut,
        filterMap_destroyAll_eq_nil os _ _ Call.ioctlArg (fun _ => rfl),
        filterMap_destroyAll_eq_nil os _ _ Call.ioctlOut (fun _ => rfl)]
    · have key := ih _ _ _ _ _ _ _ hloop
      rw [htr]
      simp only [ioctlArgs, ioctlOuts, List.filterMap_cons, Call.ioctlArg, Call.ioctlOut,
        List.map_cons]
      rw [ioctlArgs, ioctlOuts] at key
      rw [key]
      simp [List.dropLast]

/-- Inversion of the constructor: either the vector cannot be built, or the
name is too long, or the result is that of the loop run on `n_queues` default
handles with the request structure built in lines 89-107. -/
theorem ctor_inv (p : Platform) (os : OS σ) (s : σ) (name : List Nat) (m : mode)
    (packet_info : Bool) (n_queues : Nat)
    (r : Except Error iface) (tr : List Call) (s1 : σ)
    (h : iface.ctor p os s name m packet_info n_queues = some (r, tr, s1)) :
    (p.max_size < n_queues ∧ r = Except.error Error.length_error ∧ tr = [] ∧ s1 = s) ∨
    (p.IFNAMSIZ < name.length ∧ r = Except.error (Error.name_too_long p.IFNAMSIZ) ∧
      tr = [] ∧ s1 = s) ∨
    (name.length ≤ p.IFNAMSIZ ∧ ∃ (ifr : ifreq) (r0 : Except Error (List Nat × List fd)),
      ifr.ifr_flags =
        (((if m = mode.TUN then p.IFF_TUN else p.IFF_TAP) |||
          (if !packet_info then p.IFF_NO_PI else 0)) |||
          (if n_queues > 1 then p.IFF_MULTI_QUEUE else 0)) ∧
      ifr.ifr_name =
        (if name ≠ [] then strncpy (List.replicate p.IFNAMSIZ 0) (c_str name) name.length
          else List.replicate p.IFNAMSIZ 0) ∧
      constructLoop p os (List.replicate n_queues fd.default) [] name ifr s
        = some (r0, tr, s1) ∧
      r = r0.map (fun x => ⟨m, x.1, x.2⟩)) := by
  simp only [iface.ctor] at h
  by_cases hmax : p.max_size < n_queues
  · left
    simp only [hmax, if_true, Option.some.injEq, Prod.mk.injEq] at h
    exact ⟨hmax, h.1.symm, h.2.1.symm, h.2.2.symm⟩
  right
  simp only [hmax, if_false] at h
  by_cases hlen : p.IFNAMSIZ < name.length
  · left
    simp only [hlen, if_true, destroyAll_replicate_default, Option.some.injEq,
      Prod.mk.injEq] at h
    exact ⟨hlen, h.1.symm, h.2.1.symm, h.2.2.symm⟩
  · right
    simp only [hlen, if_false] at h
    refine ⟨by omega, ?_⟩
    split at h
    · exact absurd h (by simp)
    · rename_i e t s2 hloop
      simp only [Option.some.injEq, Prod.mk.injEq] at h
      obtain ⟨rfl, rfl, rfl⟩ := h
      refine ⟨_, _, ?_, ?_, hloop, rfl⟩
      · cases m <;> split <;> rfl
      · split <;> rfl
    · rename_i name1 queues1 t s2 hloop
      simp only [Option.some.injEq, Prod.mk.injEq] at h
      obtain ⟨rfl, rfl, rfl⟩ := h
      refine ⟨_, _, ?_, ?_, hloop, rfl⟩
      · cases m <;> split <;> rfl
      · split <;> rfl

theorem mem_replicate_default (n : Nat) : ∀ q ∈ List.replicate n fd.default, q._fd = -1 := by
  intro q hq
  rw [(List.mem_replicate.1 hq).2]
  rfl

theorem takeWhile_c_str (name : List Nat) :
    (c_str name).takeWhile (fun b => decide (b ≠ 0)) = nameOf name := by
  induction name with
  | nil => simp [c_str, nameOf]
  | cons b bs ih =>
    simp only [c_str, nameOf, List.cons_append, List.takeWhile_cons] at ih ⊢
    split
    · rw [ih]
    · rfl

theorem length_nameOf_le (buf : List Nat) : (nameOf buf).length ≤ buf.length :=
  (List.takeWhile_sublist _).length_le

/-- The name buffer after lines 90 and 105-107: the bytes of the requested
name before its first NUL, padded with NUL to `IFNAMSIZ` bytes. -/
theorem strncpy_zero_buffer (N : Nat) (name : List Nat) (h : name.length ≤ N) :
    strncpy (List.replicate N 0) (c_str name) name.length =
      nameOf name ++ List.replicate (N - (nameOf name).length) 0 := by
  have hk := length_nameOf_le name
  simp only [strncpy, takeWhile_c_str]
  rw [List.take_of_length_le hk, List.drop_replicate, List.append_assoc,
    List.append_replicate_replicate]
  congr 2
  omega


/-- The constructor loop has a defined result whenever every name buffer the
kernel returns holds a NUL byte. -/
theorem constructLoop_defined (p : Platform) (os : OS σ)
    (hnul : ∀ s f q a, 0 ∈ (os.sys_ioctl s f q a).1.2) (rest : List fd) :
    ∀ (done : List fd) (name : List Nat) (ifr : ifreq) (s : σ),
      ∃ res, constructLoop p os rest done name ifr s = some res := by
  induction rest with
  | nil =>
    intro done name ifr s
    exact ⟨_, rfl⟩
  | cons queue rest ih =>
    intro done name ifr s
    simp only [constructLoop, fd.ctor]
    by_cases ho : (os.sys_open s "/dev/net/tun" p.O_RDWR).1 < 0
    · simp only [ho, if_true]
      exact ⟨_, rfl⟩
    · simp only [ho, if_false]
      by_cases hc : (os.sys_ioctl (os.sys_open s "/dev/net/tun" p.O_RDWR).2
          (os.sys_open s "/dev/net/tun" p.O_RDWR).1 p.TUNSETIFF ifr).1.1 < 0
      · simp only [hc, if_true]
        exact ⟨_, rfl⟩
      · simp only [hc, if_false]
        have hname : ∃ name1, (if name.isEmpty then
            cstr (os.sys_ioctl (os.sys_open s "/dev/net/tun" p.O_RDWR).2
              (os.sys_open s "/dev/net/tun" p.O_RDWR).1 p.TUNSETIFF ifr).1.2
            else some name) = some name1 := by
          split
          · exact ⟨_, by rw [cstr, if_pos (hnul _ _ _ _)]⟩
          · exact ⟨_, rfl⟩
        obtain ⟨name1, hname1⟩ := hname
        rw [hname1]
        obtain ⟨res, hres⟩ := ih (done ++ [(fd.move_assign queue
            ⟨(os.sys_open s "/dev/net/tun" p.O_RDWR).1⟩).1]) name1
          ⟨(os.sys_ioctl (os.sys_open s "/dev/net/tun" p.O_RDWR).2
            (os.sys_open s "/dev/net/tun" p.O_RDWR).1 p.TUNSETIFF ifr).1.2, ifr.ifr_flags⟩
          (fd.dtor os (os.sys_ioctl (os.sys_open s "/dev/net/tun" p.O_RDWR).2
            (os.sys_open s "/dev/net/tun" p.O_RDWR).1 p.TUNSETIFF ifr).2
            (fd.move_assign queue ⟨(os.sys_open s "/dev/net/tun" p.O_RDWR).1⟩).2).2
        simp only [hres]
        exact ⟨_, rfl⟩

/-- The constructor has a defined result (an object or an exception)
whenever every name buffer the kernel returns holds a NUL byte. -/
theorem ctor_defined (p : Platform) (os : OS σ)
    (hnul : ∀ s f q a, 0 ∈ (os.sys_ioctl s f q a).1.2)
    (s : σ) (name : List Nat) (m : mode) (packet_info : Bool) (n_queues : Nat) :
    ∃ res, iface.ctor p os s name m packet_info n_queues = some res := by
  simp only [iface.ctor]
  split
  · exact ⟨_, rfl⟩
  split
  · exact ⟨_, rfl⟩
  · split
    · rename_i hloop
      obtain ⟨res, hres⟩ := constructLoop_defined p os hnul
        (List.replicate n_queues fd.default) [] name _ s
      rw [hres] at hloop
      exact absurd hloop (by simp)
    · exact ⟨_, rfl⟩
    · exact ⟨_, rfl⟩

/-! ## Properties of the constructor and of `read`/`write` -/

/-- C3 (the code at the failing input). One queue, `open` returns 3 and the
TUNSETIFF call returns -1: the constructor throws the ioctl error, and
descriptor 3 has been closed twice, by `close(fd)` (line 112) and again by
the destructor of the local `fd` while the exception unwinds (line 35). -/
theorem ctor_ioctl_failure_closes_twice :
    iface.ctor linux scripted ⟨[3], [(-1, nameBuf [])], [], []⟩ [] mode.TUN true 1 =
      some (Except.error (Error.ioctl_returned (-1)),
        [Call.sys_open "/dev/net/tun" 2 3,
         Call.sys_ioctl 3 0x400454ca ⟨nameBuf [], 1⟩ (-1) (nameBuf []),
         Call.sys_close 3,
         Call.sys_close 3],
        ⟨[], [], [], []⟩) ∧
    (closedFds
        [Call.sys_open "/dev/net/tun" 2 3,
         Call.sys_ioctl 3 0x400454ca ⟨nameBuf [], 1⟩ (-1) (nameBuf []),
         Call.sys_close 3,
         Call.sys_close 3]).count 3 = 2 :=
  ⟨rfl, rfl⟩

/-- C4. Construction is all-or-nothing. In every run of the constructor:
a failed `open` or `ioctl` anywhere in the run makes the constructor throw
(no object is returned); and when it throws, the descriptors it closed are
exactly the descriptors it opened, so every opened descriptor has been
closed, and the set of open descriptors after the run equals the set before
it (for every set the opened descriptors were not already in). -/
theorem ctor_all_or_nothing (p : Platform) (os : OS σ) (s : σ) (name : List Nat) (m : mode)
    (packet_info : Bool) (n_queues : Nat)
    (r : Except Error iface) (tr : List Call) (s1 : σ)
    (h : iface.ctor p os s name m packet_info n_queues = some (r, tr, s1)) :
    ((∃ c ∈ tr, c.failed = true) → ∃ e, r = Except.error e) ∧
    ((∃ e, r = Except.error e) →
      (∀ x, x ∈ closedFds tr ↔ x ∈ openedFds tr) ∧
      ∀ S : Finset Int, (∀ x ∈ openedFds tr, x ∉ S) → openAfter S tr = S) := by
  rcases ctor_inv p os s name m packet_info n_queues r tr s1 h with
    ⟨_, hr, htr, _⟩ | ⟨_, hr, htr, _⟩ | ⟨_, ifr, r0, _, _, hloop, hr⟩
  · subst htr
    refine ⟨fun _ => ⟨_, hr⟩, fun _ => ⟨fun x => by simp [closedFds, openedFds], ?_⟩⟩
    intro S _
    rfl
  · subst htr
    refine ⟨fun _ => ⟨_, hr⟩, fun _ => ⟨fun x => by simp [closedFds, openedFds], ?_⟩⟩
    intro S _
    rfl
  · have hfail := constructLoop_failed_iff p os _ _ _ _ _ _ _ _ hloop
    constructor
    · intro hc
      obtain ⟨e, he⟩ := hfail.1 hc
      exact ⟨e, by rw [hr, he]; rfl⟩
    · rintro ⟨e, he⟩
      have hr0 : r0 = Except.error e := by
        cases r0 with
        | error e0 => rw [hr] at he; simpa [Except.map] using he
        | ok v => rw [hr] at he; simp [Except.map] at he
      rw [hr0] at hloop
      have hclosed : ∀ x, x ∈ closedFds tr ↔ x ∈ openedFds tr := by
        intro x
        have := constructLoop_error_closed p os _ _ _ _ _ _ _ _
          (mem_replicate_default n_queues) hloop x
        simpa using this
      refine ⟨hclosed, ?_⟩
      intro S hS
      rw [constructLoop_error_openAfter p os _ _ _ _ _ _ _ _ hloop S]
      ext x
      simp only [Finset.mem_sdiff, Finset.mem_union, List.mem_toFinset, hclosed]
      constructor
      · rintro ⟨h1 | h1, h2⟩
        · exact h1
        · exact absurd h1 h2
      · intro h1
        exact ⟨Or.inl h1, fun h2 => hS x h2 h1⟩

/-- A run in which the third TUNSETIFF call fails: descriptors 3, 4 and 5 are
all closed and the descriptors 0, 1, 2 open before are the ones open after. -/
theorem ctor_all_or_nothing_witness :
    iface.ctor linux scripted threeQueues [] mode.TUN true 3 =
      some (Except.error (Error.ioctl_returned (-1)), thirdIoctlFails, ⟨[], [], [], []⟩) ∧
    closedFds thirdIoctlFails = [5, 5, 3, 4] ∧
    openAfter {0, 1, 2} thirdIoctlFails = {0, 1, 2} :=
  ⟨rfl, rfl,
    ((ctor_all_or_nothing linux scripted threeQueues [] mode.TUN true 3
      (Except.error (Error.ioctl_returned (-1))) thirdIoctlFails ⟨[], [], [], []⟩ rfl).2
        ⟨_, rfl⟩).2 {0, 1, 2} (by decide)⟩

/-- C5. In every run of the constructor, the flags field of the request
passed to each TUNSETIFF call is `IFF_TUN` (mode TUN) or `IFF_TAP` (mode TAP),
OR-ed with `IFF_NO_PI` exactly when `packet_info` is false and with
`IFF_MULTI_QUEUE` exactly when `n_queues > 1`, and nothing else. In
particular, with `n_queues = 1` the multi-queue constant is not OR-ed in and
with `n_queues > 1` its bits are all set; with the Linux constants the
multi-queue bit is set if and only if `n_queues > 1` and the no-packet-info
bit if and only if `packet_info` is false. -/
theorem ctor_request_flags (p : Platform) (os : OS σ) (s : σ) (name : List Nat) (m : mode)
    (packet_info : Bool) (n_queues : Nat)
    (r : Except Error iface) (tr : List Call) (s1 : σ)
    (h : iface.ctor p os s name m packet_info n_queues = some (r, tr, s1)) :
    ∀ a ∈ ioctlArgs tr,
      a.ifr_flags =
        ((if m = mode.TUN then p.IFF_TUN else p.IFF_TAP) |||
          (if packet_info = false then p.IFF_NO_PI else 0)) |||
          (if 1 < n_queues then p.IFF_MULTI_QUEUE else 0) ∧
      (n_queues = 1 → a.ifr_flags =
        (if m = mode.TUN then p.IFF_TUN else p.IFF_TAP) |||
          (if packet_info = false then p.IFF_NO_PI else 0)) ∧
      (1 < n_queues → a.ifr_flags &&& p.IFF_MULTI_QUEUE = p.IFF_MULTI_QUEUE) ∧
      (p = linux →
        (a.ifr_flags &&& linux.IFF_MULTI_QUEUE ≠ 0 ↔ 1 < n_queues) ∧
        (a.ifr_flags &&& linux.IFF_NO_PI ≠ 0 ↔ packet_info = false)) := by
  intro a ha
  rcases ctor_inv p os s name m packet_info n_queues r tr s1 h with
    ⟨_, _, htr, _⟩ | ⟨_, _, htr, _⟩ | ⟨_, ifr, r0, hflags, _, hloop, _⟩
  · subst htr
    simp [ioctlArgs] at ha
  · subst htr
    simp [ioctlArgs] at ha
  · have hfl := constructLoop_flags p os _ _ _ _ _ _ _ _ hloop a ha
    rw [hflags] at hfl
    have heq : a.ifr_flags =
        ((if m = mode.TUN then p.IFF_TUN else p.IFF_TAP) |||
          (if packet_info = false then p.IFF_NO_PI else 0)) |||
          (if 1 < n_queues then p.IFF_MULTI_QUEUE else 0) := by
      rw [hfl]
      cases packet_info <;> rfl
    refine ⟨heq, ?_, ?_, ?_⟩
    · intro h1
      rw [heq, h1]
      simp
    · intro h1
      rw [heq, if_pos h1]
      apply Nat.eq_of_testBit_eq
      intro i
      simp only [Nat.testBit_and, Nat.testBit_or]
      cases Nat.testBit p.IFF_MULTI_QUEUE i <;> simp
    · intro hp
      subst hp
      rw [heq]
      by_cases hn : 1 < n_queues
      · cases m <;> cases packet_info <;> simp [hn, linux] <;> decide
      · cases m <;> cases packet_info <;> simp [hn, linux] <;> decide

/-- A run for TAP without packet info on two queues: the flags word is
`IFF_TAP | IFF_NO_PI | IFF_MULTI_QUEUE`. -/
theorem ctor_request_flags_witness :
    iface.ctor linux scripted twoQueues [] mode.TAP false 2 =
      some (Except.ok ⟨mode.TAP, tun0, [⟨3⟩, ⟨4⟩]⟩, unnamedRun, ⟨[], [], [64], [-1]⟩) ∧
    ioctlArgs unnamedRun = [⟨nameBuf [], 0x1102⟩, ⟨nameBuf tun0, 0x1102⟩] ∧
    (⟨nameBuf tun0, 0x1102⟩ : ifreq).ifr_flags = (0x0002 ||| 0x1000) ||| 0x0100 :=
  ⟨rfl, rfl,
    (ctor_request_flags linux scripted twoQueues [] mode.TAP false 2
      (Except.ok ⟨mode.TAP, tun0, [⟨3⟩, ⟨4⟩]⟩) unnamedRun ⟨[], [], [64], [-1]⟩ rfl
      ⟨nameBuf tun0, 0x1102⟩ (by decide)).1⟩

/-- C6. When the constructor succeeds, `get_n_queues()` is the requested
`n_queues`; the `open` calls of the run are exactly `n_queues` opens of
"/dev/net/tun" with `O_RDWR`, the i-th returning the descriptor held by
handle i; the `ioctl` calls are exactly `n_queues` TUNSETIFF calls, the i-th
on the descriptor of handle i; every handle holds a non-negative descriptor,
never the sentinel -1; and the run made no other call (no `close`). -/
theorem ctor_success_queues (p : Platform) (os : OS σ) (s : σ) (name : List Nat) (m : mode)
    (packet_info : Bool) (n_queues : Nat)
    (self : iface) (tr : List Call) (s1 : σ)
    (h : iface.ctor p os s name m packet_info n_queues = some (Except.ok self, tr, s1)) :
    self.get_n_queues = n_queues ∧
    openCalls tr = self._queues.map (fun q => ("/dev/net/tun", p.O_RDWR, q._fd)) ∧
    ioctlTargets tr = self._queues.map (fun q => (q._fd, p.TUNSETIFF)) ∧
    (∀ q ∈ self._queues, 0 ≤ q._fd ∧ q._fd ≠ -1) ∧
    closedFds tr = [] ∧ tr.length = 2 * n_queues ∧ self._mode = m := by
  rcases ctor_inv p os s name m packet_info n_queues _ tr s1 h with
    ⟨_, hr, _, _⟩ | ⟨_, hr, _, _⟩ | ⟨_, ifr, r0, _, _, hloop, hr⟩
  · exact absurd hr (by simp)
  · exact absurd hr (by simp)
  · cases r0 with
    | error e => simp [Except.map] at hr
    | ok v =>
      obtain ⟨nm, qs⟩ := v
      simp only [Except.map, Except.ok.injEq] at hr
      subst hr
      obtain ⟨fs, hqs, hlen, hpos, hopen, hioctl, hclose, htl⟩ :=
        constructLoop_ok p os _ _ _ _ _ _ _ _ _ hloop
      simp only [List.nil_append] at hqs
      subst hqs
      simp only [List.length_replicate] at hlen htl
      refine ⟨by simp [iface.get_n_queues, hlen], ?_, ?_, ?_, hclose, htl, rfl⟩
      · simp [hopen, List.map_map, Function.comp_def]
      · simp [hioctl, List.map_map, Function.comp_def]
      · intro q hq
        obtain ⟨f, hf, rfl⟩ := List.mem_map.1 hq
        have := hpos f hf
        exact ⟨this, by show f ≠ -1; omega⟩

/-- A successful run on two queues: two handles, two opens of the device. -/
theorem ctor_success_queues_witness :
    iface.ctor linux scripted twoQueues [] mode.TAP false 2 =
      some (Except.ok ⟨mode.TAP, tun0, [⟨3⟩, ⟨4⟩]⟩, unnamedRun, ⟨[], [], [64], [-1]⟩) ∧
    iface.get_n_queues ⟨mode.TAP, tun0, [⟨3⟩, ⟨4⟩]⟩ = 2 ∧
    openCalls unnamedRun = [("/dev/net/tun", 2, 3), ("/dev/net/tun", 2, 4)] :=
  ⟨rfl,
    (ctor_success_queues linux scripted twoQueues [] mode.TAP false 2
      ⟨mode.TAP, tun0, [⟨3⟩, ⟨4⟩]⟩ unnamedRun ⟨[], [], [64], [-1]⟩ rfl).1,
    (ctor_success_queues linux scripted twoQueues [] mode.TAP false 2
      ⟨mode.TAP, tun0, [⟨3⟩, ⟨4⟩]⟩ unnamedRun ⟨[], [], [64], [-1]⟩ rfl).2.1⟩

/-- C7 (counterexample). Requested name "tun%d", two queues, the kernel
reports "tun0" in both responses: construction succeeds and `get_name()` is
"tun%d", not the reported "tun0". And with no requested name, when the first
response holds an empty name and the second "tun1", `get_name()` is "tun1",
not the (empty) name of the first response. -/
theorem get_name_is_not_the_reported_name :
    (iface.ctor linux scripted twoQueues tunTemplate mode.TUN true 2 =
        some (Except.ok ⟨mode.TUN, tunTemplate, [⟨3⟩, ⟨4⟩]⟩, templateRun,
          ⟨[], [], [64], [-1]⟩) ∧
      (ioctlOuts templateRun).map nameOf = [tun0, tun0] ∧
      iface.get_name ⟨mode.TUN, tunTemplate, [⟨3⟩, ⟨4⟩]⟩ ≠ tun0) ∧
    (iface.ctor linux scripted lateName [] mode.TUN true 2 =
        some (Except.ok ⟨mode.TUN, tun1, [⟨3⟩, ⟨4⟩]⟩, lateNameRun, ⟨[], [], [], []⟩) ∧
      (ioctlOuts lateNameRun).map nameOf = [[], tun1] ∧
      iface.get_name ⟨mode.TUN, tun1, [⟨3⟩, ⟨4⟩]⟩ ≠ []) :=
  ⟨⟨rfl, rfl, by decide⟩, ⟨rfl, rfl, by decide⟩⟩

/-- C7 (amended). After every successful construction: when the requested
name is non-empty, `get_name()` is the requested name, whatever the kernel
reported; when it is empty, `get_name()` is the first non-empty name among
the names the kernel wrote into the configuration responses, in queue order,
and empty when there is none; so it is the name of the first queue's response
whenever that name is non-empty. -/
theorem ctor_get_name (p : Platform) (os : OS σ) (s : σ) (name : List Nat) (m : mode)
    (packet_info : Bool) (n_queues : Nat)
    (self : iface) (tr : List Call) (s1 : σ)
    (h : iface.ctor p os s name m packet_info n_queues = some (Except.ok self, tr, s1)) :
    (name ≠ [] → self.get_name = name) ∧
    (name = [] → self.get_name =
      (((ioctlOuts tr).map nameOf).find? (fun n => decide (n ≠ []))).getD []) ∧
    (name = [] → ∀ out outs, ioctlOuts tr = out :: outs → nameOf out ≠ [] →
      self.get_name = nameOf out) := by
  rcases ctor_inv p os s name m packet_info n_queues _ tr s1 h with
    ⟨_, hr, _, _⟩ | ⟨_, hr, _, _⟩ | ⟨_, ifr, r0, _, _, hloop, hr⟩
  · exact absurd hr (by simp)
  · exact absurd hr (by simp)
  · cases r0 with
    | error e => simp [Except.map] at hr
    | ok v =>
      obtain ⟨nm, qs⟩ := v
      simp only [Except.map, Except.ok.injEq] at hr
      subst hr
      obtain ⟨h1, h2⟩ := constructLoop_name p os _ _ _ _ _ _ _ _ _ hloop
      refine ⟨h1, h2, ?_⟩
      intro h0 out outs houts hne
      have := h2 h0
      rw [houts] at this
      simpa [iface.get_name, List.find?_cons, hne] using this

/-- A successful run with the requested name "tun%d": the name is kept. -/
theorem ctor_get_name_witness :
    iface.ctor linux scripted twoQueues tunTemplate mode.TUN true 2 =
      some (Except.ok ⟨mode.TUN, tunTemplate, [⟨3⟩, ⟨4⟩]⟩, templateRun,
        ⟨[], [], [64], [-1]⟩) ∧
    tunTemplate ≠ [] ∧
    iface.get_name ⟨mode.TUN, tunTemplate, [⟨3⟩, ⟨4⟩]⟩ = tunTemplate :=
  ⟨rfl, by decide,
    (ctor_get_name linux scripted twoQueues tunTemplate mode.TUN true 2
      ⟨mode.TUN, tunTemplate, [⟨3⟩, ⟨4⟩]⟩ templateRun ⟨[], [], [64], [-1]⟩ rfl).1
      (by decide)⟩

/-- C9 (counterexample). Requested with `n_queues = 0`, the constructor
succeeds: it returns an object with zero queues and the empty name, and
makes no system call. -/
theorem ctor_zero_queues_succeeds :
    iface.ctor linux scripted twoQueues [] mode.TUN true 0 =
      some (Except.ok ⟨mode.TUN, [], []⟩, [], twoQueues) ∧
    iface.get_n_queues ⟨mode.TUN, [], []⟩ = 0 ∧
    iface.get_name ⟨mode.TUN, [], []⟩ = [] :=
  ⟨rfl, rfl, rfl⟩

/-- C9 (amended). The constructor does not check `n_queues`: after every
successful construction `get_n_queues()` equals the requested `n_queues`, so
it is at least 1 exactly when at least one queue was requested; and a
construction requested with `n_queues = 0` and a name of at most `IFNAMSIZ`
bytes succeeds with zero queues, no system call and the requested name. -/
theorem ctor_n_queues (p : Platform) (os : OS σ) (s : σ) (name : List Nat) (m : mode)
    (packet_info : Bool) (n_queues : Nat) :
    (∀ (self : iface) (tr : List Call) (s1 : σ),
      iface.ctor p os s name m packet_info n_queues = some (Except.ok self, tr, s1) →
      self.get_n_queues = n_queues ∧ (1 ≤ self.get_n_queues ↔ 1 ≤ n_queues)) ∧
    (name.length ≤ p.IFNAMSIZ →
      iface.ctor p os s name m packet_info 0 = some (Except.ok ⟨m, name, []⟩, [], s)) := by
  constructor
  · intro self tr s1 h
    rcases ctor_inv p os s name m packet_info n_queues _ tr s1 h with
      ⟨_, hr, _, _⟩ | ⟨_, hr, _, _⟩ | ⟨_, ifr, r0, _, _, hloop, hr⟩
    · exact absurd hr (by simp)
    · exact absurd hr (by simp)
    · cases r0 with
      | error e => simp [Except.map] at hr
      | ok v =>
        obtain ⟨nm, qs⟩ := v
        simp only [Except.map, Except.ok.injEq] at hr
        subst hr
        obtain ⟨fs, hqs, hlen, _⟩ := constructLoop_ok p os _ _ _ _ _ _ _ _ _ hloop
        simp only [List.nil_append] at hqs
        subst hqs
        simp only [List.length_replicate] at hlen
        have : iface.get_n_queues ⟨m, nm, fs.map fd.mk⟩ = n_queues := by
          simp [iface.get_n_queues, hlen]
        exact ⟨this, by rw [this]⟩
  · intro hlen
    have hlt : ¬ p.IFNAMSIZ < name.length := by omega
    simp only [iface.ctor, hlt, if_false, Nat.not_lt_zero, List.replicate_zero, constructLoop]

/-- A successful run on two queues, and a run with zero queues requested. -/
theorem ctor_n_queues_witness :
    (iface.ctor linux scripted twoQueues [] mode.TAP false 2 =
      some (Except.ok ⟨mode.TAP, tun0, [⟨3⟩, ⟨4⟩]⟩, unnamedRun, ⟨[], [], [64], [-1]⟩) ∧
      iface.get_n_queues ⟨mode.TAP, tun0, [⟨3⟩, ⟨4⟩]⟩ = 2) ∧
    (tun0.length ≤ linux.IFNAMSIZ ∧
      iface.ctor linux scripted twoQueues tun0 mode.TAP false 0 =
        some (Except.ok ⟨mode.TAP, tun0, []⟩, [], twoQueues)) :=
  ⟨⟨rfl, ((ctor_n_queues linux scripted twoQueues [] mode.TAP false 2).1
      ⟨mode.TAP, tun0, [⟨3⟩, ⟨4⟩]⟩ unnamedRun ⟨[], [], [64], [-1]⟩ rfl).1⟩,
   ⟨by decide, (ctor_n_queues linux scripted twoQueues tun0 mode.TAP false 0).2 (by decide)⟩⟩

/-- C10 (counterexample). Three runs of the constructor, all successful.
Requested name "tun%d", two queues, the kernel reports "tun0": the request
of queue 1 names "tun0" while `get_name()` is "tun%d". No requested name,
three queues, the kernel reports "tun0", then "tun1": the request of queue 2
names "tun1" while `get_name()` is "tun0". Requested name "a", NUL, "b", one
queue: the name buffer of queue 0 holds "a" and fifteen NUL bytes, not the
three requested bytes followed by thirteen NUL bytes. -/
theorem request_name_is_not_get_name :
    (iface.ctor linux scripted twoQueues tunTemplate mode.TUN true 2 =
        some (Except.ok ⟨mode.TUN, tunTemplate, [⟨3⟩, ⟨4⟩]⟩, templateRun,
          ⟨[], [], [64], [-1]⟩) ∧
      (ioctlArgs templateRun)[1]? = some ⟨nameBuf tun0, 0x101⟩ ∧
      nameOf (nameBuf tun0) = tun0 ∧
      iface.get_name ⟨mode.TUN, tunTemplate, [⟨3⟩, ⟨4⟩]⟩ = tunTemplate ∧
      tun0 ≠ tunTemplate) ∧
    (iface.ctor linux scripted twoNames [] mode.TUN true 3 =
        some (Except.ok ⟨mode.TUN, tun0, [⟨3⟩, ⟨4⟩, ⟨5⟩]⟩, twoNamesRun,
          ⟨[], [], [], []⟩) ∧
      (ioctlArgs twoNamesRun)[2]? = some ⟨nameBuf tun1, 0x101⟩ ∧
      nameOf (nameBuf tun1) = tun1 ∧
      iface.get_name ⟨mode.TUN, tun0, [⟨3⟩, ⟨4⟩, ⟨5⟩]⟩ = tun0 ∧
      tun1 ≠ tun0) ∧
    (iface.ctor linux scripted twoQueues nulName mode.TUN true 1 =
        some (Except.ok ⟨mode.TUN, nulName, [⟨3⟩]⟩,
          [Call.sys_open "/dev/net/tun" 2 3,
           Call.sys_ioctl 3 0x400454ca ⟨97 :: List.replicate 15 0, 1⟩ 0 (nameBuf tun0)],
          ⟨[4], [(0, nameBuf tun0)], [64], [-1]⟩) ∧
      97 :: List.replicate 15 0 ≠ nulName ++ List.replicate 13 0) :=
  ⟨⟨rfl, rfl, rfl, rfl, by decide⟩, ⟨rfl, rfl, rfl, rfl, by decide⟩, ⟨rfl, by decide⟩⟩

/-- C10 (amended). In every successful construction: the name buffer of the
request of queue 0 holds the bytes of the requested name before its first
NUL byte (all of them when it holds none), padded with NUL bytes to
`IFNAMSIZ` bytes; for every i >= 1 the name buffer of the request of queue i
is the buffer the kernel returned from the configuration call of queue i-1;
hence, when no name was requested and every response of the kernel carries
the same non-empty name, the request of every queue i >= 1 names
`get_name()`. -/
theorem ctor_request_names (p : Platform) (os : OS σ) (s : σ) (name : List Nat) (m : mode)
    (packet_info : Bool) (n_queues : Nat)
    (self : iface) (tr : List Call) (s1 : σ)
    (h : iface.ctor p os s name m packet_info n_queues = some (Except.ok self, tr, s1)) :
    (∀ a : ifreq, (ioctlArgs tr)[0]? = some a →
      a.ifr_name = nameOf name ++ List.replicate (p.IFNAMSIZ - (nameOf name).length) 0) ∧
    (∀ (i : Nat) (a : ifreq), (ioctlArgs tr)[i + 1]? = some a →
      (ioctlOuts tr)[i]? = some a.ifr_name) ∧
    (name = [] → ∀ nm, nm ≠ [] → (∀ out ∈ ioctlOuts tr, nameOf out = nm) →
      ∀ (i : Nat) (a : ifreq), (ioctlArgs tr)[i + 1]? = some a →
        nameOf a.ifr_name = self.get_name) := by
  rcases ctor_inv p os s name m packet_info n_queues _ tr s1 h with
    ⟨_, hr, _, _⟩ | ⟨_, hr, _, _⟩ | ⟨hlen, ifr, r0, _, hname, hloop, hr⟩
  · exact absurd hr (by simp)
  · exact absurd hr (by simp)
  · have hbuf : ifr.ifr_name =
        nameOf name ++ List.replicate (p.IFNAMSIZ - (nameOf name).length) 0 := by
      rw [hname]
      by_cases h0 : name = []
      · simp [h0, nameOf]
      · rw [if_pos h0]
        exact strncpy_zero_buffer p.IFNAMSIZ name hlen
    have hreq := constructLoop_request_names p os _ _ _ _ _ _ _ _ hloop
    have hget : ∀ (i : Nat) (a : ifreq), (ioctlArgs tr)[i]? = some a →
        (ifr.ifr_name :: ioctlOuts tr)[i]? = some a.ifr_name := by
      intro i a hi
      have h1 : ((ioctlArgs tr).map ifreq.ifr_name)[i]? = some a.ifr_name := by
        rw [List.getElem?_map, hi]
        rfl
      rw [hreq, List.getElem?_dropLast] at h1
      split at h1
      · exact h1
      · exact absurd h1 (by simp)
    have hstep : ∀ (i : Nat) (a : ifreq), (ioctlArgs tr)[i + 1]? = some a →
        (ioctlOuts tr)[i]? = some a.ifr_name := by
      intro i a hi
      simpa using hget (i + 1) a hi
    refine ⟨?_, hstep, ?_⟩
    · intro a ha
      have := hget 0 a ha
      simp only [List.getElem?_cons_zero, Option.some.injEq] at this
      rw [← this, hbuf]
    · intro h0 nm hnm hall i a hi
      have hout := hstep i a hi
      have hmem : a.ifr_name ∈ ioctlOuts tr := List.getElem?_mem hout
      rw [hall _ hmem]
      cases r0 with
      | error e => simp [Except.map] at hr
      | ok v =>
        obtain ⟨nm1, qs⟩ := v
        simp only [Except.map, Except.ok.injEq] at hr
        subst hr
        obtain ⟨_, h2⟩ := constructLoop_name p os _ _ _ _ _ _ _ _ _ hloop
        have hn := h2 h0
        show nm = nm1
        rw [hn]
        cases houts : ioctlOuts tr with
        | nil => rw [houts] at hmem; simp at hmem
        | cons out outs =>
          have : nameOf out = nm := hall out (by rw [houts]; exact List.mem_cons_self _ _)
          simp [List.find?_cons, this, hnm]

/-- A successful run on two queues without a requested name: the request of
queue 1 carries the buffer returned for queue 0, which reads as `get_name()`. -/
theorem ctor_request_names_witness :
    iface.ctor linux scripted twoQueues [] mode.TAP false 2 =
      some (Except.ok ⟨mode.TAP, tun0, [⟨3⟩, ⟨4⟩]⟩, unnamedRun, ⟨[], [], [64], [-1]⟩) ∧
    (ioctlArgs unnamedRun)[0 + 1]? = some ⟨nameBuf tun0, 0x1102⟩ ∧
    (ioctlOuts unnamedRun)[0]? = some (nameBuf tun0) ∧
    nameOf (nameBuf tun0) = iface.get_name ⟨mode.TAP, tun0, [⟨3⟩, ⟨4⟩]⟩ :=
  ⟨rfl, rfl,
    (ctor_request_names linux scripted twoQueues [] mode.TAP false 2
      ⟨mode.TAP, tun0, [⟨3⟩, ⟨4⟩]⟩ unnamedRun ⟨[], [], [64], [-1]⟩ rfl).2.1 0
      ⟨nameBuf tun0, 0x1102⟩ rfl,
    (ctor_request_names linux scripted twoQueues [] mode.TAP false 2
      ⟨mode.TAP, tun0, [⟨3⟩, ⟨4⟩]⟩ unnamedRun ⟨[], [], [64], [-1]⟩ rfl).2.2 rfl tun0
      (by decide) (by decide) 0 ⟨nameBuf tun0, 0x1102⟩ rfl⟩

/-- C2 (counterexample). The object built by a successful construction with
one queue (descriptor 3): `read` and `write` with queue index 1 index the
handle vector out of range, which is undefined in the source (`none`): no
error is thrown. -/
theorem read_write_out_of_range_undefined :
    iface.ctor linux scripted twoQueues [] mode.TUN true 1 =
      some (Except.ok ⟨mode.TUN, tun0, [⟨3⟩]⟩,
        [Call.sys_open "/dev/net/tun" 2 3,
         Call.sys_ioctl 3 0x400454ca ⟨nameBuf [], 1⟩ 0 (nameBuf tun0)],
        ⟨[4], [(0, nameBuf tun0)], [64], [-1]⟩) ∧
    iface.get_n_queues ⟨mode.TUN, tun0, [⟨3⟩]⟩ = 1 ∧
    iface.read scripted ⟨[4], [(0, nameBuf tun0)], [64], [-1]⟩
      ⟨mode.TUN, tun0, [⟨3⟩]⟩ 0 64 1 = none ∧
    iface.write scripted ⟨[4], [(0, nameBuf tun0)], [64], [-1]⟩
      ⟨mode.TUN, tun0, [⟨3⟩]⟩ 0 64 1 = none :=
  ⟨rfl, rfl, rfl, rfl⟩

/-- C2 (amended). `read` and `write` do not check the queue index: for
`queue >= get_n_queues()` they index the handle vector out of range, which is
undefined in the source, so no error is thrown and no result is defined; and
for every queue index, the only error `read` throws is the one for a negative
result of the `read` system call, the only error `write` throws the one for a
negative result of the `write` system call. -/
theorem read_write_queue_unchecked (os : OS σ) (s : σ) (self : iface)
    (buf n_bytes queue : Nat) :
    (self.get_n_queues ≤ queue →
      iface.read os s self buf n_bytes queue = none ∧
      iface.write os s self buf n_bytes queue = none) ∧
    (∀ (e : Error) (self1 : iface) (tr : List Call) (s1 : σ),
      iface.read os s self buf n_bytes queue = some (Except.error e, self1, tr, s1) →
      e = Error.read_negative ∧ ∃ c ∈ tr, c.isTransfer = true) ∧
    (∀ (e : Error) (self1 : iface) (tr : List Call) (s1 : σ),
      iface.write os s self buf n_bytes queue = some (Except.error e, self1, tr, s1) →
      e = Error.write_negative ∧ ∃ c ∈ tr, c.isTransfer = true) := by
  refine ⟨?_, ?_, ?_⟩
  · intro hq
    have hnone : self._queues[queue]? = none := List.getElem?_eq_none hq
    simp [iface.read, iface.write, hnone]
  · intro e self1 tr s1 h
    simp only [iface.read] at h
    split at h
    · exact absurd h (by simp)
    · split at h
      · simp only [Option.some.injEq, Prod.mk.injEq, Except.error.injEq] at h
        obtain ⟨rfl, _, rfl, _⟩ := h
        exact ⟨rfl, _, List.mem_cons_self _ _, rfl⟩
      · simp at h
  · intro e self1 tr s1 h
    simp only [iface.write] at h
    split at h
    · exact absurd h (by simp)
    · split at h
      · simp only [Option.some.injEq, Prod.mk.injEq, Except.error.injEq] at h
        obtain ⟨rfl, _, rfl, _⟩ := h
        exact ⟨rfl, _, List.mem_cons_self _ _, rfl⟩
      · simp at h

/-- An object with two queues, index 2: neither call has a defined result. -/
theorem read_write_queue_unchecked_witness :
    iface.get_n_queues ⟨mode.TUN, tun0, [⟨3⟩, ⟨4⟩]⟩ ≤ 2 ∧
    iface.read scripted twoQueues ⟨mode.TUN, tun0, [⟨3⟩, ⟨4⟩]⟩ 0 64 2 = none ∧
    iface.write scripted twoQueues ⟨mode.TUN, tun0, [⟨3⟩, ⟨4⟩]⟩ 0 64 2 = none :=
  ⟨by decide,
    (read_write_queue_unchecked scripted twoQueues ⟨mode.TUN, tun0, [⟨3⟩, ⟨4⟩]⟩ 0 64 2).1
      (by decide)⟩

/-- C8. For `queue < get_n_queues()`, `read` issues exactly one system call,
a `read` on the descriptor of handle `queue` with the buffer and byte count
it was given; it throws its I/O error if and only if that call returned a
negative result, and otherwise returns exactly the non-negative count the
call returned; the object (mode, name, handles) is unchanged. The same holds
for `write` with the `write` system call. -/
theorem read_write_in_range (os : OS σ) (s : σ) (self : iface)
    (buf n_bytes queue : Nat) (h : queue < self.get_n_queues) :
    (∃ res : Except Error Nat,
      iface.read os s self buf n_bytes queue =
        some (res, self,
          [Call.sys_read (self._queues.get ⟨queue, h⟩)._fd buf n_bytes
            (os.sys_read s (self._queues.get ⟨queue, h⟩)._fd buf n_bytes).1],
          (os.sys_read s (self._queues.get ⟨queue, h⟩)._fd buf n_bytes).2) ∧
      ((os.sys_read s (self._queues.get ⟨queue, h⟩)._fd buf n_bytes).1 < 0 →
        res = Except.error Error.read_negative) ∧
      (0 ≤ (os.sys_read s (self._queues.get ⟨queue, h⟩)._fd buf n_bytes).1 →
        ∃ k : Nat, res = Except.ok k ∧
          (k : Int) = (os.sys_read s (self._queues.get ⟨queue, h⟩)._fd buf n_bytes).1)) ∧
    (∃ res : Except Error Nat,
      iface.write os s self buf n_bytes queue =
        some (res, self,
          [Call.sys_write (self._queues.get ⟨queue, h⟩)._fd buf n_bytes
            (os.sys_write s (self._queues.get ⟨queue, h⟩)._fd buf n_bytes).1],
          (os.sys_write s (self._queues.get ⟨queue, h⟩)._fd buf n_bytes).2) ∧
      ((os.sys_write s (self._queues.get ⟨queue, h⟩)._fd buf n_bytes).1 < 0 →
        res = Except.error Error.write_negative) ∧
      (0 ≤ (os.sys_write s (self._queues.get ⟨queue, h⟩)._fd buf n_bytes).1 →
        ∃ k : Nat, res = Except.ok k ∧
          (k : Int) = (os.sys_write s (self._queues.get ⟨queue, h⟩)._fd buf n_bytes).1)) := by
  have hq : self._queues[queue]? = some (self._queues.get ⟨queue, h⟩) := by
    rw [List.getElem?_eq_getElem h]
    rfl
  constructor
  · by_cases hneg : (os.sys_read s (self._queues.get ⟨queue, h⟩)._fd buf n_bytes).1 < 0
    · refine ⟨Except.error Error.read_negative, ?_, fun _ => rfl, fun h0 => ?_⟩
      · simp only [iface.read, hq, hneg, if_true]
      · omega
    · refine ⟨Except.ok (os.sys_read s (self._queues.get ⟨queue, h⟩)._fd buf n_bytes).1.toNat,
        ?_, fun h0 => absurd h0 hneg, fun h0 => ⟨_, rfl, Int.toNat_of_nonneg h0⟩⟩
      simp only [iface.read, hq, hneg, if_false]
  · by_cases hneg : (os.sys_write s (self._queues.get ⟨queue, h⟩)._fd buf n_bytes).1 < 0
    · refine ⟨Except.error Error.write_negative, ?_, fun _ => rfl, fun h0 => ?_⟩
      · simp only [iface.write, hq, hneg, if_true]
      · omega
    · refine ⟨Except.ok (os.sys_write s (self._queues.get ⟨queue, h⟩)._fd buf n_bytes).1.toNat,
        ?_, fun h0 => absurd h0 hneg, fun h0 => ⟨_, rfl, Int.toNat_of_nonneg h0⟩⟩
      simp only [iface.write, hq, hneg, if_false]

/-- An object with two queues, index 1: one `read` of 64 bytes on descriptor 4,
and one `write` on descriptor 4 whose negative result becomes the error. -/
theorem read_write_in_range_witness :
    1 < iface.get_n_queues ⟨mode.TUN, tun0, [⟨3⟩, ⟨4⟩]⟩ ∧
    iface.read scripted twoQueues ⟨mode.TUN, tun0, [⟨3⟩, ⟨4⟩]⟩ 7 64 1 =
      some (Except.ok 64, ⟨mode.TUN, tun0, [⟨3⟩, ⟨4⟩]⟩, [Call.sys_read 4 7 64 64],
        ⟨[3, 4], [(0, nameBuf tun0), (0, nameBuf tun0)], [], [-1]⟩) ∧
    iface.write scripted twoQueues ⟨mode.TUN, tun0, [⟨3⟩, ⟨4⟩]⟩ 7 64 1 =
      some (Except.error Error.write_negative, ⟨mode.TUN, tun0, [⟨3⟩, ⟨4⟩]⟩,
        [Call.sys_write 4 7 64 (-1)],
        ⟨[3, 4], [(0, nameBuf tun0), (0, nameBuf tun0)], [64], []⟩) ∧
    (∃ res : Except Error Nat,
      iface.write scripted twoQueues ⟨mode.TUN, tun0, [⟨3⟩, ⟨4⟩]⟩ 7 64 1 =
        some (res, ⟨mode.TUN, tun0, [⟨3⟩, ⟨4⟩]⟩, [Call.sys_write 4 7 64 (-1)],
          ⟨[3, 4], [(0, nameBuf tun0), (0, nameBuf tun0)], [64], []⟩) ∧
      res = Except.error Error.write_negative) :=
  ⟨by decide, rfl, rfl,
    (read_write_in_range scripted twoQueues ⟨mode.TUN, tun0, [⟨3⟩, ⟨4⟩]⟩ 7 64 1
      (by decide)).2.elim (fun res hres => ⟨res, hres.1, hres.2.1 (by decide)⟩)⟩

end tun_tap
